import Mathlib

/-!
Verification of the AudioMine audio player's core logic against its
specification.  The Python modules `src/core/metadata_handler.py`,
`src/core/library_manager.py`, `src/core/playlist_manager.py`,
`src/core/player.py` and `src/ui/visualizer.py` are shallowly embedded:
pure helpers become Lean functions, the file system and the external
tagging library (mutagen) become an explicit `World` oracle, and the
mutable caches and managers become explicit state passed through the
operations.
-/

set_option maxRecDepth 8192

/-! ### Python string primitives

Exact models of the CPython string operations the handler uses:
`os.path.basename`, `os.path.splitext`, `str.strip`, `str.find`,
`in` (substring test), `str.split(sep, 1)`, slicing, `str.isdigit`,
`int`, and `str.replace`. -/

/-- Python whitespace characters stripped by `str.strip()` (ASCII subset). -/
def isPySpace (c : Char) : Bool :=
  c = ' ' || c = '\t' || c = '\n' || c = '\r' || c = '\x0b' || c = '\x0c'

/-- Model of `str.strip()`: remove whitespace from both ends. -/
def pyStrip (s : String) : String :=
  String.mk (((s.data.dropWhile isPySpace).reverse.dropWhile isPySpace).reverse)

/-- Index of the first occurrence of `pat` in a character list
(`str.find`), `none` when absent. -/
def subIdx (pat : List Char) : List Char → Option Nat
  | [] => if pat.isEmpty then some 0 else none
  | c :: rest =>
    if pat.isPrefixOf (c :: rest) then some 0 else (subIdx pat rest).map (· + 1)

/-- Model of `s.find(pat)` (as an `Option`). -/
def strFindSub (s pat : String) : Option Nat := subIdx pat.data s.data

/-- Model of `pat in s` (Python substring containment). -/
def strHasSub (s pat : String) : Bool := (strFindSub s pat).isSome

/-- Model of `os.path.basename` (POSIX): everything after the last `/`. -/
def pyBasename (p : String) : String :=
  String.mk ((p.data.reverse.takeWhile (fun c => c != '/')).reverse)

/-- Index of the last occurrence of character `c`, `none` when absent
(`str.rfind` for a single character). -/
def lastIdxOf (cs : List Char) (c : Char) : Option Nat :=
  match cs.reverse.findIdx? (fun x => x == c) with
  | none => none
  | some k => some (cs.length - 1 - k)

/-- Model of `os.path.splitext`: split off the extension at the last dot, except
when every character between the last separator and that dot is itself a
dot (so `.bashrc`-style names keep their dot). -/
def pySplitExt (s : String) : String × String :=
  let cs := s.data
  match lastIdxOf cs '.' with
  | none => (s, "")
  | some d =>
    let start : Nat := match lastIdxOf cs '/' with | none => 0 | some si => si + 1
    if ((cs.take d).drop start).any (fun c => c != '.') then
      (String.mk (cs.take d), String.mk (cs.drop d))
    else (s, "")

/-- Python slice `s[a:b]` for nonnegative bounds. -/
def pySlice (s : String) (a b : Nat) : String := String.mk ((s.data.take b).drop a)

/-- Model of `s[:n]`. -/
def strTake (s : String) (n : Nat) : String := String.mk (s.data.take n)

/-- Model of `s[n:]`. -/
def strDrop (s : String) (n : Nat) : String := String.mk (s.data.drop n)

/-- Model of `s.split(pat, 1)`: the parts before and after the first occurrence of
`pat`; when `pat` does not occur the second component is `""` (callers
guard on `strHasSub`). -/
def pySplitOnce (s pat : String) : String × String :=
  match strFindSub s pat with
  | none => (s, "")
  | some i => (strTake s i, strDrop s (i + pat.length))

/-- Model of `str.isdigit` (ASCII digits; the handler only compares against year
literals). -/
def pyIsDigit (s : String) : Bool := !s.data.isEmpty && s.data.all Char.isDigit

/-- Model of `int(s)` for a digit string. -/
def digitsToNat (s : String) : Nat :=
  s.data.foldl (fun a c => a * 10 + (c.toNat - '0'.toNat)) 0

/-- Recursion core of `str.replace`, with fuel bounded by the string
length (the handler always replaces a nonempty `[year]` pattern). -/
def pyReplaceAux : Nat → List Char → List Char → List Char → List Char
  | 0, _, _, s => s
  | Nat.succ fuel, pat, rep, s =>
    match subIdx pat s with
    | none => s
    | some i => s.take i ++ rep ++ pyReplaceAux fuel pat rep (s.drop (i + pat.length))

/-- Model of `s.replace(pat, rep)`. -/
def pyReplace (s pat rep : String) : String :=
  String.mk (pyReplaceAux (s.data.length + 1) pat.data rep.data s.data)

/-! ### Metadata records (`src/core/metadata_handler.py`)

A metadata dict is modelled as a structure.  Every key that
`_create_basic_metadata` and `_extract_with_mutagen` always set is a
plain field; the `'_mtime'` key, which only the successful extraction
path of `extract_metadata` adds (line 60), is an `Option` field whose
`none` models absence of the key.  Track lengths are modelled as
naturals (the claims only distinguish zero from nonzero). -/

structure Metadata where
  title : String
  artist : String
  album : String
  genre : String
  year : String
  track : String
  length : Nat
  length_formatted : String
  bitrate : Nat
  bitrate_formatted : String
  sample_rate : Nat
  channels : Nat
  path : String
  file_size : Nat
  file_size_formatted : String
  mtime_field : Option Int
deriving DecidableEq, Repr

/-- The dict keys present on a record: the fifteen always-present keys,
plus `'_mtime'` exactly when the optional field is set. -/
def metadata_keys (m : Metadata) : List String :=
  ["title", "artist", "album", "genre", "year", "track", "length",
   "length_formatted", "bitrate", "bitrate_formatted", "sample_rate",
   "channels", "path", "file_size", "file_size_formatted"] ++
  (if m.mtime_field.isSome then ["_mtime"] else [])

/-- The environment of `MetadataHandler`: the file system
(`os.path.exists`, `os.path.getmtime`, `os.path.getsize`), whether
mutagen imported, and `_extract_with_mutagen` as an oracle whose
`Except.error` models a raised exception. -/
structure World where
  fsExists : String → Bool
  mtime : String → Int
  getsize : String → Nat
  mutagenAvailable : Bool
  mutagenExtract : String → Except Unit Metadata

/-- Model of `MetadataHandler._create_basic_metadata`: build a record from the
filename alone, parsing an `artist - title` shape and a bracketed year. -/
def create_basic_metadata (w : World) (file_path : String) : Metadata :=
  let filename := (pySplitExt (pyBasename file_path)).1
  let base : Metadata := {
    title := filename
    artist := "Unknown Artist"
    album := "Unknown Album"
    genre := "Unknown Genre"
    year := "Unknown Year"
    track := "0"
    length := 0
    length_formatted := "0:00"
    bitrate := 0
    bitrate_formatted := "Unknown"
    sample_rate := 0
    channels := 2
    path := file_path
    file_size := if w.fsExists file_path then w.getsize file_path else 0
    file_size_formatted := "0 KB"
    mtime_field := none }
  if strHasSub filename " - " then
    let parts := pySplitOnce filename " - "
    let artist0 := pyStrip parts.1
    let title0 := pyStrip parts.2
    let title_part := parts.2
    match strFindSub title_part "[", strFindSub title_part "]" with
    | some bi, some ei =>
      let bracket_content := pySlice title_part (bi + 1) ei
      if pyIsDigit bracket_content && decide (1900 ≤ digitsToNat bracket_content)
          && decide (digitsToNat bracket_content ≤ 2100) then
        { base with
          artist := artist0
          year := bracket_content
          title := pyStrip (pyReplace title0 ("[" ++ bracket_content ++ "]") "") }
      else
        { base with artist := artist0, title := title0 }
    | _, _ => { base with artist := artist0, title := title0 }
  else base

/-- The handler's metadata cache `self.cache`; a Python dict assignment
is modelled by consing, so `List.lookup` sees the newest binding. -/
abbrev Cache := List (String × Metadata)

/-- Model of `self.cache[file_path] = record`. -/
def cacheInsert (c : Cache) (p : String) (r : Metadata) : Cache := (p, r) :: c

/-- The fall-through of `extract_metadata` after a cache miss
(lines 52-67): basic metadata when mutagen is unavailable, otherwise
`_extract_with_mutagen` with `'_mtime'` stamped on success and basic
metadata when it raises; every branch stores the result in the cache. -/
def extract_miss (w : World) (c : Cache) (file_path : String) (file_mtime : Int) :
    Metadata × Cache :=
  if !w.mutagenAvailable then
    let basic_metadata := create_basic_metadata w file_path
    (basic_metadata, cacheInsert c file_path basic_metadata)
  else
    match w.mutagenExtract file_path with
    | Except.ok md =>
      let md' := { md with mtime_field := some file_mtime }
      (md', cacheInsert c file_path md')
    | Except.error _ =>
      let basic_metadata := create_basic_metadata w file_path
      (basic_metadata, cacheInsert c file_path basic_metadata)

/-- Model of `MetadataHandler.extract_metadata` (lines 42-67): falsy or missing
paths get basic metadata uncached; otherwise the cached record is
returned when its stored `'_mtime'` equals the file's current mtime, and
the miss path runs otherwise. -/
def extract_metadata (w : World) (c : Cache) (file_path : String) :
    Metadata × Cache :=
  if file_path == "" || !w.fsExists file_path then
    (create_basic_metadata w (if file_path == "" then "Unknown file" else file_path), c)
  else
    let file_mtime := w.mtime file_path
    match List.lookup file_path c with
    | some r =>
      if r.mtime_field == some file_mtime then (r, c)
      else extract_miss w c file_path file_mtime
    | none => extract_miss w c file_path file_mtime

/-! ### Playlist manager (`src/core/playlist_manager.py`)

`self.playlists` (a dict of name to track list) becomes an association
list; `self.current_playlist` and `self.current_track_index` are plain
fields.  Qt signal emissions have no observable state and are dropped.
A lookup of a current playlist name no longer present in the dict (a
`KeyError` in Python) is modelled as a no-op returning `none`. -/

structure PlaylistManager where
  playlists : List (String × List String)
  current_playlist : Option String
  current_track_index : Int
deriving DecidableEq, Repr

/-- The freshly constructed manager. -/
def pmInit : PlaylistManager :=
  { playlists := [], current_playlist := none, current_track_index := -1 }

/-- Dict update of an existing key: replace the track list stored under
`name`. -/
def plSet (pls : List (String × List String)) (name : String) (ts : List String) :
    List (String × List String) :=
  pls.map (fun e => if e.1 == name then (name, ts) else e)

/-- Model of `PlaylistManager.create_playlist`. -/
def create_playlist (pm : PlaylistManager) (name : String) : Bool × PlaylistManager :=
  if name != "" && (List.lookup name pm.playlists).isNone then
    (true, { pm with playlists := pm.playlists ++ [(name, [])] })
  else (false, pm)

/-- Model of `PlaylistManager.add_to_playlist`: append when the playlist exists
and does not already contain the path. -/
def add_to_playlist (pm : PlaylistManager) (playlist_name track_path : String) :
    Bool × PlaylistManager :=
  match List.lookup playlist_name pm.playlists with
  | some ts =>
    if !ts.contains track_path then
      (true, { pm with playlists := plSet pm.playlists playlist_name (ts ++ [track_path]) })
    else (false, pm)
  | none => (false, pm)

/-- The loop of `add_files_to_playlist`: each path is checked against
the playlist as it has grown so far. -/
def add_files_loop (ts : List String) (added : Bool) :
    List String → List String × Bool
  | [] => (ts, added)
  | p :: rest =>
    if !ts.contains p then add_files_loop (ts ++ [p]) true rest
    else add_files_loop ts added rest

/-- Model of `PlaylistManager.add_files_to_playlist`. -/
def add_files_to_playlist (pm : PlaylistManager) (playlist_name : String)
    (file_paths : List String) : Bool × PlaylistManager :=
  match List.lookup playlist_name pm.playlists with
  | some ts =>
    let r := add_files_loop ts false file_paths
    (r.2, { pm with playlists := plSet pm.playlists playlist_name r.1 })
  | none => (false, pm)

/-- Model of `PlaylistManager.remove_from_playlist`: delete by index when in
range. -/
def remove_from_playlist (pm : PlaylistManager) (playlist_name : String)
    (track_index : Int) : Bool × PlaylistManager :=
  match List.lookup playlist_name pm.playlists with
  | some ts =>
    if 0 ≤ track_index ∧ track_index < (ts.length : Int) then
      (true, { pm with
        playlists := plSet pm.playlists playlist_name (ts.eraseIdx track_index.toNat) })
    else (false, pm)
  | none => (false, pm)

/-- Model of `PlaylistManager.set_current_playlist`: index 0 when the playlist is
non-empty, -1 when empty. -/
def set_current_playlist (pm : PlaylistManager) (name : String) :
    Bool × PlaylistManager :=
  match List.lookup name pm.playlists with
  | some ts =>
    (true, { pm with
      current_playlist := some name
      current_track_index := if ts.isEmpty then -1 else 0 })
  | none => (false, pm)

/-- Model of `PlaylistManager.get_current_track`. -/
def get_current_track (pm : PlaylistManager) : Option String :=
  match pm.current_playlist with
  | some name =>
    match List.lookup name pm.playlists with
    | some ts =>
      if 0 ≤ pm.current_track_index ∧ pm.current_track_index < (ts.length : Int) then
        ts.get? pm.current_track_index.toNat
      else none
    | none => none
  | none => none

/-- Model of `PlaylistManager.next_track`: advance the index by one modulo the
playlist length (Python `%` on a positive modulus, i.e. `Int.emod`). -/
def next_track (pm : PlaylistManager) : Option String × PlaylistManager :=
  match pm.current_playlist with
  | none => (none, pm)
  | some name =>
    match List.lookup name pm.playlists with
    | none => (none, pm)
    | some ts =>
      if ts.isEmpty then (none, pm)
      else
        let i := (pm.current_track_index + 1) % (ts.length : Int)
        (ts.get? i.toNat, { pm with current_track_index := i })

/-- Model of `PlaylistManager.previous_track`: step the index back by one modulo
the playlist length. -/
def previous_track (pm : PlaylistManager) : Option String × PlaylistManager :=
  match pm.current_playlist with
  | none => (none, pm)
  | some name =>
    match List.lookup name pm.playlists with
    | none => (none, pm)
    | some ts =>
      if ts.isEmpty then (none, pm)
      else
        let i := (pm.current_track_index - 1) % (ts.length : Int)
        (ts.get? i.toNat, { pm with current_track_index := i })

/-- Model of `PlaylistManager.load_playlists`: `loaded = none` models a missing
file or a raised exception (returns `False`, state unchanged); on a
successful JSON load each playlist keeps only its tracks that exist on
the file system `ex`, and a playlist left empty is deleted. -/
def load_playlists (ex : String → Bool) (loaded : Option (List (String × List String)))
    (pm : PlaylistManager) : Bool × PlaylistManager :=
  match loaded with
  | none => (false, pm)
  | some pls =>
    let pls' := pls.filterMap (fun e =>
      let valid_tracks := e.2.filter ex
      if valid_tracks.isEmpty then none else some (e.1, valid_tracks))
    (true, { pm with playlists := pls' })

/-! ### Library manager (`src/core/library_manager.py`) -/

/-- Model of `LibraryManager.remove_missing_files`: keep the paths that exist and
return the number removed. -/
def remove_missing_files (ex : String → Bool) (library : List String) :
    List String × Nat :=
  let lib' := library.filter ex
  (lib', library.length - lib'.length)

/-- Model of `LibraryManager.load_library`: `loaded = none` models a missing file
or a raised exception (library untouched, 0 returned); on success the
loaded list is pruned by `remove_missing_files` and the new length is
returned. -/
def load_library (ex : String → Bool) (loaded : Option (List String))
    (library : List String) : List String × Nat :=
  match loaded with
  | none => (library, 0)
  | some l =>
    let lib' := (remove_missing_files ex l).1
    (lib', lib'.length)

/-! ### Player (`src/core/player.py`)

The VLC engine is opaque; `get_state` reads its state enum (with `none`
modelling a raised exception) and `set_volume` forwards its argument to
`audio_set_volume`.  The value a call hands to the engine is the
observable we model: `set_volume` returns the forwarded volume, `none`
when VLC is unavailable and nothing is sent. -/

inductive VlcState
  | NothingSpecial
  | Opening
  | Buffering
  | Playing
  | Paused
  | Stopped
  | Ended
  | Err
deriving DecidableEq, Repr

/-- Model of `Player.get_state` (lines 107-125). -/
def get_state (vlc_available : Bool) (engine : Option VlcState) : String :=
  if !vlc_available then "unavailable"
  else
    match engine with
    | none => "error"
    | some s =>
      match s with
      | VlcState.Playing => "playing"
      | VlcState.Paused => "paused"
      | VlcState.Ended => "ended"
      | VlcState.Err => "error"
      | _ => "stopped"

/-- Model of `Player.set_volume` (lines 141-151): the volume forwarded unchanged
to `audio_set_volume`, `none` when VLC is unavailable. -/
def set_volume (vlc_available : Bool) (volume : Int) : Option Int :=
  if vlc_available then some volume else none

/-! ### Visualizer (`src/ui/visualizer.py`)

Bar heights are modelled as rationals (numpy floats in the source).
`rnd` is the random vector of a timer tick after the optional beat
effect has been added. -/

structure AudioVisualizer where
  bar_heights : List ℚ
  target_heights : List ℚ
deriving DecidableEq

/-- Model of `np.clip` of one entry to `[lo, hi]`. -/
def npClip (lo hi x : ℚ) : ℚ := min (max x lo) hi

/-- Model of `AudioVisualizer._generate_random_data`: smooth the targets toward
the random vector, the bars toward the targets, then clip to
`[0.01, 1.0]`. -/
def generate_random_data (rnd : List ℚ) (s : AudioVisualizer) : AudioVisualizer :=
  let target_heights := List.zipWith (fun r t => (3 / 10) * r + (7 / 10) * t) rnd s.target_heights
  let bar_heights :=
    (List.zipWith (fun t b => (3 / 10) * t + (7 / 10) * b) target_heights s.bar_heights).map
      (npClip (1 / 100) 1)
  { bar_heights := bar_heights, target_heights := target_heights }

/-- Model of `AudioVisualizer.set_audio_data` (lines 64-68): the body is `pass`,
so the visualizer state is returned unchanged whatever FFT data is
supplied. -/
def set_audio_data (s : AudioVisualizer) (_fft_data : List ℚ) : AudioVisualizer := s

/-! ### Theorems -/

/-- C4: after a successful `load_library`, every path kept in the
library exists on the file system, and the returned value is the number
of paths remaining after pruning. -/
theorem load_library_prunes_missing (ex : String → Bool) (l library : List String) :
    ((load_library ex (some l) library).1.all ex = true)
    ∧ (load_library ex (some l) library).2 = (load_library ex (some l) library).1.length := by
  refine ⟨?_, rfl⟩
  simp only [load_library, remove_missing_files, List.all_eq_true]
  intro p hp
  exact (List.mem_filter.mp hp).2

/-- C5 counterexample: `set_volume` forwards an out-of-range volume to
the media engine unmodified; at `v = 150` the applied volume is 150,
outside 0-100, so no rejection or clamping happens. -/
theorem set_volume_not_clamped : set_volume true 150 = some 150 ∧ ¬ (150 : Int) ≤ 100 := by
  exact ⟨rfl, by decide⟩

/-- C5 amended: `set_volume` forwards its argument unchanged to
`audio_set_volume`; the applied volume lies within 0-100 exactly when
the caller's argument does (the UI sliders, bounded 0-100, are what keep
the player's volume in range). -/
theorem set_volume_passthrough (vlc_available : Bool) (v a : Int)
    (h : set_volume vlc_available v = some a) :
    a = v ∧ ((0 ≤ a ∧ a ≤ 100) ↔ (0 ≤ v ∧ v ≤ 100)) := by
  cases vlc_available with
  | false => simp [set_volume] at h
  | true =>
    simp only [set_volume, if_true] at h
    have hv : v = a := by simpa using h
    subst hv
    exact ⟨rfl, Iff.rfl⟩

/-- C5 witness for `set_volume_passthrough` at `v = 80`. -/
theorem set_volume_passthrough_witness :
    (80 : Int) = 80 ∧ ((0 ≤ (80 : Int) ∧ (80 : Int) ≤ 100) ↔ (0 ≤ (80 : Int) ∧ (80 : Int) ≤ 100)) :=
  set_volume_passthrough true 80 80 rfl

/-- C6 counterexample: when the engine reports `Ended`, `get_state`
returns `"ended"`, which is none of playing/paused/stopped (and an
unavailable VLC gives `"unavailable"`). -/
theorem get_state_beyond_three :
    get_state true (some VlcState.Ended) = "ended"
    ∧ (["playing", "paused", "stopped"].contains "ended") = false
    ∧ get_state false none = "unavailable" := by
  exact ⟨rfl, by decide, rfl⟩

/-- C6 amended: `get_state` always returns one of the six strings
playing, paused, ended, error, stopped, unavailable. -/
theorem get_state_in_six (vlc_available : Bool) (engine : Option VlcState) :
    (["playing", "paused", "stopped", "ended", "error", "unavailable"].contains
      (get_state vlc_available engine)) = true := by
  cases vlc_available with
  | false => rfl
  | true =>
    cases engine with
    | none => rfl
    | some s => cases s <;> rfl

/-- C7: the visualizer ignores FFT input: `set_audio_data` leaves the
state — in particular both the bar heights and the target heights —
unchanged, so the heights evolve only through the timer-driven
`_generate_random_data`. -/
theorem set_audio_data_ignored (s : AudioVisualizer) (fft : List ℚ) :
    set_audio_data s fft = s
    ∧ (set_audio_data s fft).bar_heights = s.bar_heights
    ∧ (set_audio_data s fft).target_heights = s.target_heights :=
  ⟨rfl, rfl, rfl⟩

/-- C10: after `load_playlists` succeeds, every remaining playlist is
non-empty and every track it contains exists on the file system. -/
theorem load_playlists_valid (ex : String → Bool)
    (pls : List (String × List String)) (pm : PlaylistManager) :
    (load_playlists ex (some pls) pm).1 = true
    ∧ ((load_playlists ex (some pls) pm).2.playlists.all
        (fun e => !e.2.isEmpty && e.2.all ex)) = true := by
  refine ⟨rfl, ?_⟩
  simp only [load_playlists, List.all_eq_true]
  intro e he
  simp only [List.mem_filterMap] at he
  obtain ⟨a, -, ha⟩ := he
  cases hv : (a.2.filter ex).isEmpty with
  | true => simp [hv] at ha
  | false =>
    simp only [hv, Bool.false_eq_true, if_false, Option.some.injEq] at ha
    subst ha
    simp only [Bool.and_eq_true, Bool.not_eq_true', List.all_eq_true]
    exact ⟨hv, fun x hx => (List.mem_filter.mp hx).2⟩

/-! ### Distinctness of playlist entries (C9) -/

/-- Invariant: no playlist contains the same track path twice. -/
def pmNodup (pm : PlaylistManager) : Prop :=
  ∀ e ∈ pm.playlists, e.2.Nodup

/-- Every entry of `plSet pls name ts` is either an original entry or
`(name, ts)`. -/
lemma mem_plSet {pls : List (String × List String)} {name : String}
    {ts : List String} {e : String × List String}
    (he : e ∈ plSet pls name ts) : e ∈ pls ∨ e = (name, ts) := by
  simp only [plSet, List.mem_map] at he
  obtain ⟨a, ha, rfl⟩ := he
  by_cases h : (a.1 == name) = true
  · right; simp [h]
  · left; simpa [h] using ha

/-- A successful association-list lookup exhibits the pair itself. -/
lemma lookup_mem_pair {β : Type} {k : String} {l : List (String × β)} {v : β}
    (h : List.lookup k l = some v) : (k, v) ∈ l := by
  induction l with
  | nil => simp [List.lookup] at h
  | cons e rest ih =>
    obtain ⟨a, b⟩ := e
    by_cases hk : (k == a) = true
    · have ha : k = a := eq_of_beq hk
      simp only [List.lookup, hk, Option.some.injEq] at h
      subst ha; subst h
      exact List.mem_cons_self _ _
    · have hk' : (k == a) = false := by simpa using hk
      simp only [List.lookup, hk'] at h
      exact List.mem_cons_of_mem _ (ih h)

/-- Appending a fresh path keeps a playlist duplicate-free. -/
lemma nodup_append_fresh {ts : List String} {p : String}
    (hnd : ts.Nodup) (hmem : p ∉ ts) : (ts ++ [p]).Nodup := by
  rw [List.nodup_append]
  exact ⟨hnd, List.nodup_singleton p, by simpa [List.disjoint_singleton] using hmem⟩

/-- The loop of `add_files_to_playlist` keeps the playlist
duplicate-free. -/
lemma add_files_loop_nodup (fs : List String) :
    ∀ (ts : List String) (b : Bool), ts.Nodup → (add_files_loop ts b fs).1.Nodup := by
  induction fs with
  | nil => intro ts b h; simpa [add_files_loop] using h
  | cons p rest ih =>
    intro ts b h
    by_cases hp : p ∈ ts
    · simpa [add_files_loop, hp] using ih ts b h
    · simpa [add_files_loop, hp] using ih (ts ++ [p]) true (nodup_append_fresh h hp)

/-- C9: playlists never acquire duplicate entries through the public
operations: adding an already-present path returns `False` and leaves
the manager unchanged, and `add_to_playlist`, `add_files_to_playlist`
and `remove_from_playlist` all preserve the distinctness invariant. -/
theorem playlists_stay_nodup (pm : PlaylistManager)
    (playlist_name track_path : String) (file_paths : List String)
    (track_index : Int) (ts : List String) (hnd : pmNodup pm) :
    (List.lookup playlist_name pm.playlists = some ts → track_path ∈ ts →
       add_to_playlist pm playlist_name track_path = (false, pm))
    ∧ pmNodup (add_to_playlist pm playlist_name track_path).2
    ∧ pmNodup (add_files_to_playlist pm playlist_name file_paths).2
    ∧ pmNodup (remove_from_playlist pm playlist_name track_index).2 := by
  have hlook : ∀ l, List.lookup playlist_name pm.playlists = some l → l.Nodup := by
    intro l hl
    exact hnd _ (lookup_mem_pair hl)
  have hset : ∀ (l : List String), l.Nodup → pmNodup { pm with
      playlists := plSet pm.playlists playlist_name l } := by
    intro l hl e he
    rcases mem_plSet he with h | h
    · exact hnd e h
    · rw [h]; exact hl
  refine ⟨?_, ?_, ?_, ?_⟩
  · intro hl hmem
    simp [add_to_playlist, hl, hmem]
  · cases hl : List.lookup playlist_name pm.playlists with
    | none => simpa [add_to_playlist, hl] using hnd
    | some l =>
      by_cases hp : track_path ∈ l
      · simpa [add_to_playlist, hl, hp] using hnd
      · simpa [add_to_playlist, hl, hp] using
          hset (l ++ [track_path]) (nodup_append_fresh (hlook l hl) hp)
  · cases hl : List.lookup playlist_name pm.playlists with
    | none => simpa [add_files_to_playlist, hl] using hnd
    | some l =>
      simpa [add_files_to_playlist, hl] using
        hset (add_files_loop l false file_paths).1
          (add_files_loop_nodup file_paths l false (hlook l hl))
  · cases hl : List.lookup playlist_name pm.playlists with
    | none => simpa [remove_from_playlist, hl] using hnd
    | some l =>
      by_cases hi : 0 ≤ track_index ∧ track_index < (l.length : Int)
      · simpa [remove_from_playlist, hl, hi] using
          hset (l.eraseIdx track_index.toNat)
            (List.Nodup.sublist (List.eraseIdx_sublist l track_index.toNat) (hlook l hl))
      · simpa [remove_from_playlist, hl, hi] using hnd

/-- A concrete manager holding one playlist `"p" = ["a"]`. -/
def pmW : PlaylistManager :=
  { playlists := [("p", ["a"])], current_playlist := none, current_track_index := -1 }

/-- C9 witness for `playlists_stay_nodup` on `pmW`. -/
theorem playlists_stay_nodup_witness :
    add_to_playlist pmW "p" "a" = (false, pmW)
    ∧ pmNodup (add_to_playlist pmW "p" "a").2
    ∧ pmNodup (add_files_to_playlist pmW "p" ["a", "b"]).2
    ∧ pmNodup (remove_from_playlist pmW "p" 0).2 :=
  have h := playlists_stay_nodup pmW "p" "a" ["a", "b"] 0 ["a"]
    (by unfold pmNodup; decide)
  ⟨h.1 (by decide) (by decide), h.2.1, h.2.2.1, h.2.2.2⟩

/-! ### Next/previous track round trip (C8) -/

/-- First step of a reachable state: create playlist `"p"`. -/
def pmStepCreate : PlaylistManager := (create_playlist pmInit "p").2

/-- Second step: select playlist `"p"` while it is still empty, which
sets the current track index to -1. -/
def pmStepSelect : PlaylistManager := (set_current_playlist pmStepCreate "p").2

/-- Third step: add a track, reaching a manager whose current playlist
is set and non-empty while the index is still -1. -/
def pmReached : PlaylistManager := (add_to_playlist pmStepSelect "p" "a").2

/-- C8 counterexample: the reachable manager `pmReached` has its current
playlist set and non-empty, yet `next_track` followed by
`previous_track` moves the index from -1 to 0, not back to its original
value. -/
theorem next_prev_not_roundtrip :
    pmReached.current_playlist = some "p"
    ∧ List.lookup "p" pmReached.playlists = some ["a"]
    ∧ pmReached.current_track_index = -1
    ∧ (previous_track (next_track pmReached).2).2.current_track_index = 0
    ∧ ((0 : Int) = -1 → False) := by decide

/-- C8 amended: when the current track index is in range (as it is
after selecting a non-empty playlist), `next_track` then
`previous_track` — and `previous_track` then `next_track` — restore the
index, and the track returned by the second call is the current track. -/
theorem next_prev_roundtrip (pm : PlaylistManager) (name : String) (ts : List String)
    (hc : pm.current_playlist = some name)
    (hl : List.lookup name pm.playlists = some ts)
    (h0 : 0 ≤ pm.current_track_index)
    (h1 : pm.current_track_index < (ts.length : Int)) :
    (previous_track (next_track pm).2).2.current_track_index = pm.current_track_index
    ∧ (next_track (previous_track pm).2).2.current_track_index = pm.current_track_index
    ∧ (previous_track (next_track pm).2).1 = get_current_track pm
    ∧ (next_track (previous_track pm).2).1 = get_current_track pm := by
  set i := pm.current_track_index with hidef
  set n := (ts.length : Int) with hndef
  have hne : ts.isEmpty = false := by
    rcases ts with - | ⟨x, ts'⟩
    · rw [hndef] at h1; simp at h1; omega
    · rfl
  have hmm : ∀ a : Int, (a % n) % n = a % n := fun a => Int.emod_emod_of_dvd a dvd_rfl
  have e1 : ((i + 1) % n - 1) % n = i := by
    have h2 : ((i + 1) % n - 1) % n = (i + 1 - 1) % n := by
      rw [Int.sub_emod ((i + 1) % n) 1 n, hmm, ← Int.sub_emod]
    rw [h2, add_sub_cancel_right]
    exact Int.emod_eq_of_lt h0 h1
  have e2 : ((i - 1) % n + 1) % n = i := by
    have h2 : ((i - 1) % n + 1) % n = (i - 1 + 1) % n := by
      rw [Int.add_emod ((i - 1) % n) 1 n, hmm, ← Int.add_emod]
    rw [h2, sub_add_cancel]
    exact Int.emod_eq_of_lt h0 h1
  refine ⟨?_, ?_, ?_, ?_⟩ <;>
    simp [next_track, previous_track, get_current_track, hc, hl, hne, ← hndef,
      e1, e2, h0, h1]

/-- A manager whose current playlist is selected with the index in
range. -/
def pmInRange : PlaylistManager :=
  { playlists := [("p", ["a", "b"])], current_playlist := some "p",
    current_track_index := 0 }

/-- C8 witness for `next_prev_roundtrip` on `pmInRange`. -/
theorem next_prev_roundtrip_witness :
    (previous_track (next_track pmInRange).2).2.current_track_index
        = pmInRange.current_track_index
    ∧ (next_track (previous_track pmInRange).2).2.current_track_index
        = pmInRange.current_track_index
    ∧ (previous_track (next_track pmInRange).2).1 = get_current_track pmInRange
    ∧ (next_track (previous_track pmInRange).2).1 = get_current_track pmInRange :=
  next_prev_roundtrip pmInRange "p" ["a", "b"] rfl rfl (by decide) (by decide)

/-! ### Metadata extraction and the cache (C1, C2, C3) -/

/-- Records built by `_create_basic_metadata` never carry the
`'_mtime'` key. -/
lemma create_basic_mtime_none (w : World) (q : String) :
    (create_basic_metadata w q).mtime_field = none := by
  simp only [create_basic_metadata]
  repeat first | rfl | split

/-- When the filename has no `' - '`, the basic title is the filename. -/
lemma create_basic_title_plain (w : World) (q : String)
    (h : strHasSub (pySplitExt (pyBasename q)).1 " - " = false) :
    (create_basic_metadata w q).title = (pySplitExt (pyBasename q)).1 := by
  simp only [create_basic_metadata, h, Bool.false_eq_true, if_false]

/-- The filename a path derives its basic metadata from: the basename
without its extension. -/
def baseStem (p : String) : String := (pySplitExt (pyBasename p)).1

/-- The part of the filename after the first `' - '` (the title half of
an `artist - title` shape). -/
def dashTail (p : String) : String := (pySplitOnce (baseStem p) " - ").2

/-- The text between the first `[` (at index `bi`) and the first `]`
(at index `ei`) of the title half. -/
def bracketContent (p : String) (bi ei : Nat) : String :=
  pySlice (dashTail p) (bi + 1) ei

/-- The handler's year test: all digits and between 1900 and 2100. -/
def isYearToken (s : String) : Bool :=
  pyIsDigit s && decide (1900 ≤ digitsToNat s) && decide (digitsToNat s ≤ 2100)

/-- Dash shape with a valid bracketed year: the basic title is the
stripped title half with `[year]` removed, and the year is stored. -/
lemma create_basic_title_year (w : World) (p : String) (bi ei : Nat)
    (h : strHasSub (baseStem p) " - " = true)
    (hb : strFindSub (dashTail p) "[" = some bi)
    (he : strFindSub (dashTail p) "]" = some ei)
    (hy : isYearToken (bracketContent p bi ei) = true) :
    (create_basic_metadata w p).title
      = pyStrip (pyReplace (pyStrip (dashTail p))
          ("[" ++ bracketContent p bi ei ++ "]") "")
    ∧ (create_basic_metadata w p).year = bracketContent p bi ei := by
  simp only [baseStem] at h
  simp only [baseStem, dashTail] at hb he
  simp only [baseStem, dashTail, bracketContent, isYearToken] at hy
  simp only [create_basic_metadata, baseStem, dashTail, bracketContent,
    h, if_true, hb, he, hy]
  exact ⟨trivial, trivial⟩

/-- Dash shape whose bracketed content is not a valid year: the basic
title is the stripped title half, brackets kept. -/
lemma create_basic_title_bracket_kept (w : World) (p : String) (bi ei : Nat)
    (h : strHasSub (baseStem p) " - " = true)
    (hb : strFindSub (dashTail p) "[" = some bi)
    (he : strFindSub (dashTail p) "]" = some ei)
    (hy : isYearToken (bracketContent p bi ei) = false) :
    (create_basic_metadata w p).title = pyStrip (dashTail p) := by
  simp only [baseStem] at h
  simp only [baseStem, dashTail] at hb he
  simp only [baseStem, dashTail, bracketContent, isYearToken] at hy
  simp only [create_basic_metadata, baseStem, dashTail,
    h, if_true, hb, he, hy, Bool.false_eq_true, if_false]

/-- Dash shape without a bracket pair: the basic title is the stripped
title half. -/
lemma create_basic_title_no_bracket (w : World) (p : String)
    (h : strHasSub (baseStem p) " - " = true)
    (hn : strFindSub (dashTail p) "[" = none ∨ strFindSub (dashTail p) "]" = none) :
    (create_basic_metadata w p).title = pyStrip (dashTail p) := by
  simp only [baseStem] at h
  rcases hn with hb | he
  · simp only [baseStem, dashTail] at hb
    simp only [create_basic_metadata, baseStem, dashTail, h, if_true, hb]
  · simp only [baseStem, dashTail] at he
    rcases hfb : strFindSub (pySplitOnce (pySplitExt (pyBasename p)).1 " - ").2 "[" with - | bi
    · simp only [create_basic_metadata, baseStem, dashTail, h, if_true, hfb]
    · simp only [create_basic_metadata, baseStem, dashTail, h, if_true, hfb, he]

/-- The result of the miss path does not depend on the cache it is
handed. -/
lemma extract_miss_fst (w : World) (c c' : Cache) (p : String) (m : Int) :
    (extract_miss w c p m).1 = (extract_miss w c' p m).1 := by
  unfold extract_miss
  cases hA : w.mutagenAvailable with
  | false => simp
  | true => cases hE : w.mutagenExtract p <;> simp [hE]

/-- The miss path stores exactly the record it returns. -/
lemma lookup_extract_miss (w : World) (c : Cache) (p : String) (m : Int) :
    List.lookup p (extract_miss w c p m).2 = some (extract_miss w c p m).1 := by
  unfold extract_miss
  cases hA : w.mutagenAvailable with
  | false => simp [cacheInsert, List.lookup]
  | true => cases hE : w.mutagenExtract p <;> simp [hE, cacheInsert, List.lookup]

/-- C1 amended: for an existing file, the cached record is returned
exactly when it carries a stored `'_mtime'` equal to the file's current
mtime; on any other cached record the call re-extracts (the result is
what a fresh extraction would produce) and the new record replaces the
cache entry.  Records from successful tag extraction carry the stored
mtime, while the fallback records (tagging library unavailable, or
extraction raised) are cached without one — so a cached fallback is
always re-extracted, even when the file is unchanged. -/
theorem extract_metadata_cache_behavior (w : World) (c : Cache) (p : String)
    (r : Metadata) (hp : (p == "") = false) (hex : w.fsExists p = true) :
    (List.lookup p c = some r → r.mtime_field = some (w.mtime p) →
       extract_metadata w c p = (r, c))
    ∧ (List.lookup p c = some r → r.mtime_field ≠ some (w.mtime p) →
       extract_metadata w c p = extract_miss w c p (w.mtime p)
       ∧ List.lookup p (extract_metadata w c p).2 = some (extract_metadata w c p).1
       ∧ (extract_metadata w c p).1 = (extract_metadata w [] p).1)
    ∧ (w.mutagenAvailable = false ∨ (∃ e, w.mutagenExtract p = Except.error e) →
       (extract_miss w c p (w.mtime p)).1.mtime_field = none)
    ∧ (∀ md, w.mutagenAvailable = true → w.mutagenExtract p = Except.ok md →
       (extract_miss w c p (w.mtime p)).1.mtime_field = some (w.mtime p)) := by
  refine ⟨?_, ?_, ?_, ?_⟩
  · intro hl hmt
    have hbeq : (r.mtime_field == some (w.mtime p)) = true := by simp [hmt]
    simp [extract_metadata, hp, hex, hl, hbeq]
  · intro hl hmt
    have hbeq : (r.mtime_field == some (w.mtime p)) = false := by
      simpa using hmt
    have hred : extract_metadata w c p = extract_miss w c p (w.mtime p) := by
      simp [extract_metadata, hp, hex, hl, hbeq]
    refine ⟨hred, ?_, ?_⟩
    · rw [hred]; exact lookup_extract_miss w c p (w.mtime p)
    · rw [hred, show extract_metadata w [] p = extract_miss w [] p (w.mtime p) from by
        simp [extract_metadata, hp, hex, List.lookup]]
      exact extract_miss_fst w c [] p (w.mtime p)
  · rintro (hA | ⟨e, hE⟩)
    · simp [extract_miss, hA, create_basic_mtime_none]
    · cases hA : w.mutagenAvailable with
      | false => simp [extract_miss, hA, create_basic_mtime_none]
      | true => simp [extract_miss, hA, hE, create_basic_mtime_none]
  · intro md hA hE
    simp [extract_miss, hA, hE]

/-- A sample record as the tagging library could return it. -/
def mdSample : Metadata :=
  { title := "X", artist := "A", album := "B", genre := "G", year := "2001",
    track := "1", length := 100, length_formatted := "1:40", bitrate := 128000,
    bitrate_formatted := "128 kbps", sample_rate := 44100, channels := 2,
    path := "f.mp3", file_size := 9, file_size_formatted := "0.01 KB",
    mtime_field := none }

/-- A world where `f.mp3` exists with mtime 7 and tags extract fine. -/
def wHit : World :=
  { fsExists := fun q => q == "f.mp3", mtime := fun _ => 7,
    getsize := fun _ => 9, mutagenAvailable := true,
    mutagenExtract := fun _ => Except.ok mdSample }

/-- The record `extract_metadata` caches for `f.mp3` under `wHit`. -/
def rHit : Metadata := { mdSample with mtime_field := some 7 }

/-- A cache already holding `rHit` for `f.mp3`. -/
def cHit : Cache := [("f.mp3", rHit)]

/-- A world where `s.mp3` exists with mtime 5 but extraction raises. -/
def wErrFirst : World :=
  { fsExists := fun q => q == "s.mp3", mtime := fun _ => 5,
    getsize := fun _ => 4, mutagenAvailable := true,
    mutagenExtract := fun _ => Except.error () }

/-- The same world at a later call where extraction now succeeds; the
file itself (existence and mtime) is unchanged. -/
def wOkLater : World := { wErrFirst with mutagenExtract := fun _ => Except.ok mdSample }

/-- C1 counterexample: extracting `s.mp3` while extraction raises caches
a fallback record for it; on a second call with the file unchanged (same
existence, same mtime) the handler does not return that cached record —
it re-extracts and returns a different record, because the fallback was
cached without a stored mtime. -/
theorem fallback_record_never_cache_hit :
    List.lookup "s.mp3" (extract_metadata wErrFirst [] "s.mp3").2
        = some (extract_metadata wErrFirst [] "s.mp3").1
    ∧ wOkLater.mtime "s.mp3" = wErrFirst.mtime "s.mp3"
    ∧ wOkLater.fsExists = wErrFirst.fsExists
    ∧ (extract_metadata wOkLater (extract_metadata wErrFirst [] "s.mp3").2 "s.mp3").1
        ≠ (extract_metadata wErrFirst [] "s.mp3").1 :=
  ⟨by decide, rfl, rfl, by decide⟩

/-- A stale cache for `s.mp3`: it holds the fallback record produced
under `wErrFirst`. -/
def cStale : Cache := (extract_metadata wErrFirst [] "s.mp3").2

/-- C1 witness for `extract_metadata_cache_behavior`, applying it in a
cache-hit situation (`wHit`, `cHit`), a mismatch situation (`wOkLater`,
`cStale`), a raising extraction (`wErrFirst`) and a successful one
(`wHit`). -/
theorem extract_metadata_cache_behavior_witness :
    (("f.mp3" == "") = false ∧ wHit.fsExists "f.mp3" = true
      ∧ extract_metadata wHit cHit "f.mp3" = (rHit, cHit))
    ∧ (extract_metadata wOkLater cStale "s.mp3"
          = extract_miss wOkLater cStale "s.mp3" (wOkLater.mtime "s.mp3")
       ∧ List.lookup "s.mp3" (extract_metadata wOkLater cStale "s.mp3").2
          = some (extract_metadata wOkLater cStale "s.mp3").1
       ∧ (extract_metadata wOkLater cStale "s.mp3").1
          = (extract_metadata wOkLater [] "s.mp3").1)
    ∧ (extract_miss wErrFirst [] "s.mp3" (wErrFirst.mtime "s.mp3")).1.mtime_field = none
    ∧ (extract_miss wHit [] "f.mp3" (wHit.mtime "f.mp3")).1.mtime_field
        = some (wHit.mtime "f.mp3") :=
  ⟨⟨by decide, rfl,
    (extract_metadata_cache_behavior wHit cHit "f.mp3" rHit (by decide) rfl).1 rfl rfl⟩,
   (extract_metadata_cache_behavior wOkLater cStale "s.mp3"
      (create_basic_metadata wErrFirst "s.mp3") (by decide) rfl).2.1 (by decide) (by decide),
   (extract_metadata_cache_behavior wErrFirst [] "s.mp3" rHit (by decide) rfl).2.2.1
      (Or.inr ⟨(), rfl⟩),
   (extract_metadata_cache_behavior wHit [] "f.mp3" rHit (by decide) rfl).2.2.2
      mdSample rfl rfl⟩

/-- The fields the specification's track metadata record demands
(duration is the `length` key). -/
def requiredFields : List String :=
  ["title", "artist", "album", "genre", "year", "track", "length",
   "bitrate", "sample_rate", "channels", "path", "file_size"]

/-- Every metadata record carries all the required keys. -/
lemma required_subset_keys (m : Metadata) :
    requiredFields.all (fun k => (metadata_keys m).contains k) = true := by
  cases hm : m.mtime_field <;> simp [metadata_keys, requiredFields, hm]

/-- A world with no files and no tagging library. -/
def wNone : World :=
  { fsExists := fun _ => false, mtime := fun _ => 0, getsize := fun _ => 0,
    mutagenAvailable := false, mutagenExtract := fun _ => Except.error () }

/-- C2 counterexample: the record returned for a missing file has all
the plain fields but no `'_mtime'` key, so not every record contains the
cache timestamp. -/
theorem metadata_missing_mtime_key :
    ((metadata_keys (extract_metadata wNone [] "song.mp3").1).contains "_mtime") = false := by
  decide

/-- C2 amended: every record `extract_metadata` returns has the title,
artist, album, genre, year, track, duration, bitrate, sample-rate,
channels, path and file-size keys; the cache timestamp `'_mtime'` is
absent from every fallback record and present on the record produced by
a successful tag extraction. -/
theorem metadata_fields_present (w : World) (c : Cache) (p : String) (md : Metadata) :
    (requiredFields.all
       (fun k => (metadata_keys (extract_metadata w c p).1).contains k) = true)
    ∧ ((metadata_keys (create_basic_metadata w p)).contains "_mtime") = false
    ∧ ((p == "") = false → w.fsExists p = true → List.lookup p c = none →
        w.mutagenAvailable = true → w.mutagenExtract p = Except.ok md →
        ((metadata_keys (extract_metadata w c p).1).contains "_mtime") = true) := by
  refine ⟨required_subset_keys _, ?_, ?_⟩
  · simp [metadata_keys, create_basic_mtime_none]
  · intro hp hex hl hA hE
    simp [extract_metadata, hp, hex, hl, extract_miss, hA, hE, metadata_keys]

/-- C2 witness for `metadata_fields_present` on `wHit` with an empty
cache. -/
theorem metadata_fields_present_witness :
    (requiredFields.all
       (fun k => (metadata_keys (extract_metadata wHit [] "f.mp3").1).contains k) = true)
    ∧ ((metadata_keys (create_basic_metadata wHit "f.mp3")).contains "_mtime") = false
    ∧ ((metadata_keys (extract_metadata wHit [] "f.mp3").1).contains "_mtime") = true :=
  have h := metadata_fields_present wHit [] "f.mp3" mdSample
  ⟨h.1, h.2.1, h.2.2 (by decide) rfl rfl rfl rfl⟩

/-- C3 counterexample: for the path `"a - .mp3"` the filename splits as
`artist "a"`, title `""`: the record returned by `extract_metadata` has
an empty title. -/
theorem basic_title_can_be_empty :
    (extract_metadata wNone [] "a - .mp3").1.title = ""
    ∧ (create_basic_metadata wNone "a - .mp3").title = "" := by
  decide

/-- C3 amended: the record returned for a missing or untagged file is
the basic one, whose title is derived from the filename in every case:
the basename without extension when there is no `' - '`; with the
`artist - title` shape, the stripped part after the first `' - '`, from
which a bracketed year (digits between 1900 and 2100) is removed and
stored as the year, while any other bracketed text is kept.  The title
is therefore non-empty whenever the filename is non-empty and does not
have the `' - '` shape, but it can be empty when the part after
`' - '` is blank. -/
theorem basic_title_from_filename (w : World) (c : Cache) (p : String) :
    (w.fsExists p = false → (p == "") = false →
       extract_metadata w c p = (create_basic_metadata w p, c))
    ∧ (strHasSub (baseStem p) " - " = false →
       (create_basic_metadata w p).title = baseStem p)
    ∧ (∀ bi ei, strHasSub (baseStem p) " - " = true →
       strFindSub (dashTail p) "[" = some bi →
       strFindSub (dashTail p) "]" = some ei →
       isYearToken (bracketContent p bi ei) = true →
       (create_basic_metadata w p).title
         = pyStrip (pyReplace (pyStrip (dashTail p))
             ("[" ++ bracketContent p bi ei ++ "]") "")
       ∧ (create_basic_metadata w p).year = bracketContent p bi ei)
    ∧ (∀ bi ei, strHasSub (baseStem p) " - " = true →
       strFindSub (dashTail p) "[" = some bi →
       strFindSub (dashTail p) "]" = some ei →
       isYearToken (bracketContent p bi ei) = false →
       (create_basic_metadata w p).title = pyStrip (dashTail p))
    ∧ (strHasSub (baseStem p) " - " = true →
       (strFindSub (dashTail p) "[" = none ∨ strFindSub (dashTail p) "]" = none) →
       (create_basic_metadata w p).title = pyStrip (dashTail p))
    ∧ (strHasSub (baseStem p) " - " = false → baseStem p ≠ "" →
       (create_basic_metadata w p).title ≠ "") := by
  refine ⟨?_, create_basic_title_plain w p,
    fun bi ei => create_basic_title_year w p bi ei,
    fun bi ei => create_basic_title_bracket_kept w p bi ei,
    create_basic_title_no_bracket w p, ?_⟩
  · intro hex hp
    simp [extract_metadata, hp, hex]
  · intro h hne
    rw [create_basic_title_plain w p h]
    exact hne

/-- C3 witness for `basic_title_from_filename`, exercising every case:
`"song.mp3"` (no `' - '` shape, non-empty title) under the missing-file
branch, `"Artist - Song [2004].mp3"` (bracketed year removed and
stored), `"Artist - Song [Live].mp3"` (non-year bracket kept) and
`"A - B.mp3"` (dash shape without brackets). -/
theorem basic_title_from_filename_witness :
    extract_metadata wNone [] "song.mp3" = (create_basic_metadata wNone "song.mp3", [])
    ∧ (create_basic_metadata wNone "song.mp3").title = "song"
    ∧ (create_basic_metadata wNone "song.mp3").title ≠ ""
    ∧ (create_basic_metadata wNone "Artist - Song [2004].mp3").title = "Song"
    ∧ (create_basic_metadata wNone "Artist - Song [2004].mp3").year = "2004"
    ∧ (create_basic_metadata wNone "Artist - Song [Live].mp3").title = "Song [Live]"
    ∧ (create_basic_metadata wNone "A - B.mp3").title = "B" :=
  have h1 := basic_title_from_filename wNone [] "song.mp3"
  have h2 := basic_title_from_filename wNone [] "Artist - Song [2004].mp3"
  have h3 := basic_title_from_filename wNone [] "Artist - Song [Live].mp3"
  have h4 := basic_title_from_filename wNone [] "A - B.mp3"
  have hy := h2.2.2.1 5 10 (by decide) (by decide) (by decide) (by decide)
  ⟨h1.1 rfl (by decide),
   (h1.2.1 (by decide)).trans (by decide),
   h1.2.2.2.2.2 (by decide) (by decide),
   hy.1.trans (by decide),
   hy.2.trans (by decide),
   (h3.2.2.2.1 5 10 (by decide) (by decide) (by decide) (by decide)).trans (by decide),
   (h4.2.2.2.2.1 (by decide) (Or.inl (by decide))).trans (by decide)⟩
